import Mathlib

/-!
Verification of the solar-time / shichen calculation engine and the
geolocation coordination layer of the iching-kt-sdk repository.

The definitions below are shallow embeddings of the TypeScript sources:
* `calculateTrueSolarTime` and `getShichenFromSolarTime` from the
  solar-time calculator module,
* `precisionFromAccuracy`, `getCurrentPosition` and `getStatusInternal`
  from `GpsGeoLocator.ts`,
* `getBestLocator` and the subscription state machine from the
  composite locator in the same file,
* the minute-boundary scheduler of the solar-time provider.

Machine numbers (JS IEEE doubles) are modelled by `ℚ`; all the arithmetic
performed by the embedded code paths is exact on the values involved, so
no rounding model is needed.  JS `Date` objects are modelled by the fields
the code actually reads (epoch milliseconds, year, local hours / minutes /
seconds / milliseconds, and the timezone-offset queries).
-/

namespace IChingKt

/-- The twelve earthly branches, in the fixed cyclical order used by the
`EARTHLY_BRANCHES` table (`zi` first). -/
inductive EarthlyBranch where
  | zi | chou | yin | mao | chen | si
  | wu | wei | shen | you | xu | hai
deriving DecidableEq, Repr

/-- The `EARTHLY_BRANCHES` constant: branch names in order, Zi = 0. -/
def EARTHLY_BRANCHES : List EarthlyBranch :=
  [.zi, .chou, .yin, .mao, .chen, .si,
   .wu, .wei, .shen, .you, .xu, .hai]

/-- The `SOVEREIGN_HEXAGRAMS` constant: the hand-curated sovereign hexagram
number for each branch index, aligned with `EARTHLY_BRANCHES`. -/
def SOVEREIGN_HEXAGRAMS : List Nat :=
  [24, 19, 11, 34, 43, 1, 44, 33, 12, 20, 23, 2]

/-- The `ShichenData` record returned by `getShichenFromSolarTime`.
The two table lookups are modelled with `Option` (`none` is JS
`undefined`), so that in-boundedness of the lookups is a provable
property rather than an assumption. -/
structure ShichenData where
  index : Nat
  branch : Option EarthlyBranch
  hexagramNumber : Option Nat
  progress : ℚ
  minutesToNext : ℚ
deriving DecidableEq, Repr

/-- `getShichenFromSolarTime`, with the solar `Date` replaced by the two
fields the function reads from it: `getHours()` and `getMinutes()`. -/
def getShichenFromSolarTime (hours minutes : Nat) : ShichenData :=
  let totalMinutes := hours * 60 + minutes
  let adjustedMinutes := (totalMinutes + 60) % (24 * 60)
  let shichenIndex := adjustedMinutes / 120
  { index := shichenIndex
    branch := EARTHLY_BRANCHES.get? shichenIndex
    hexagramNumber := SOVEREIGN_HEXAGRAMS.get? shichenIndex
    progress := ((adjustedMinutes % 120 : Nat) : ℚ) / 120
    minutesToNext := 120 - ((adjustedMinutes % 120 : Nat) : ℚ) }

/-- The branch-to-sovereign-hexagram correlation table exactly as the
specification states it (Zi→24, Chou→19, …, Hai→2). -/
def sovereignOf : EarthlyBranch → Nat
  | .zi => 24 | .chou => 19 | .yin => 11 | .mao => 34
  | .chen => 43 | .si => 1 | .wu => 44 | .wei => 33
  | .shen => 12 | .you => 20 | .xu => 23 | .hai => 2

lemma earthly_branches_length : EARTHLY_BRANCHES.length = 12 := rfl

lemma sovereign_hexagrams_length : SOVEREIGN_HEXAGRAMS.length = 12 := rfl

lemma shichen_index_eq (hours minutes : Nat) :
    (getShichenFromSolarTime hours minutes).index
      = ((60 * hours + minutes + 60) % 1440) / 120 := by
  simp only [getShichenFromSolarTime]
  norm_num [Nat.mul_comm]

lemma shichen_index_lt (hours minutes : Nat) :
    (getShichenFromSolarTime hours minutes).index < 12 := by
  simp only [getShichenFromSolarTime]
  have h : (hours * 60 + minutes + 60) % (24 * 60) < 1440 :=
    Nat.mod_lt _ (by norm_num)
  exact (Nat.div_lt_iff_lt_mul (by norm_num)).2 (by omega)

lemma tables_aligned (i : Nat) :
    SOVEREIGN_HEXAGRAMS.get? i = (EARTHLY_BRANCHES.get? i).map sovereignOf := by
  match i with
  | 0 => rfl
  | 1 => rfl
  | 2 => rfl
  | 3 => rfl
  | 4 => rfl
  | 5 => rfl
  | 6 => rfl
  | 7 => rfl
  | 8 => rfl
  | 9 => rfl
  | 10 => rfl
  | 11 => rfl
  | (n + 12) => rfl

/-- C2: every solar time maps to exactly one branch: the index is
`((60*hour + minute + 60) mod 1440) / 120`, always below 12, both table
lookups succeed (never `undefined`), and boundaries are closed on the
start minute: exactly 23:00 solar is branch `zi` with progress 0, and
exactly 13:00 solar is branch `wei`. -/
theorem claim_C2_shichen_total_coverage :
    (∀ hours minutes : Nat,
      (getShichenFromSolarTime hours minutes).index
          = ((60 * hours + minutes + 60) % 1440) / 120
      ∧ (getShichenFromSolarTime hours minutes).index < 12
      ∧ (∃ b, (getShichenFromSolarTime hours minutes).branch = some b)
      ∧ (∃ n, (getShichenFromSolarTime hours minutes).hexagramNumber = some n))
    ∧ (getShichenFromSolarTime 23 0).branch = some EarthlyBranch.zi
    ∧ (getShichenFromSolarTime 23 0).progress = 0
    ∧ (getShichenFromSolarTime 13 0).branch = some EarthlyBranch.wei := by
  refine ⟨fun hours minutes => ?_, by decide,
    by norm_num [getShichenFromSolarTime], by decide⟩
  have hlt := shichen_index_lt hours minutes
  refine ⟨shichen_index_eq hours minutes, hlt, ?_, ?_⟩
  · have h12 : (getShichenFromSolarTime hours minutes).index
        < EARTHLY_BRANCHES.length := by
      rw [earthly_branches_length]; exact hlt
    exact ⟨_, List.get?_eq_get h12⟩
  · have h12 : (getShichenFromSolarTime hours minutes).index
        < SOVEREIGN_HEXAGRAMS.length := by
      rw [sovereign_hexagrams_length]; exact hlt
    exact ⟨_, List.get?_eq_get h12⟩

/-- C3: the returned branch and hexagram number are the entries of the two
fixed index-aligned tables at the computed index, and the hexagram number
is the literal per-branch specification table value (`sovereignOf`). -/
theorem claim_C3_hexagram_table :
    ∀ hours minutes : Nat,
      (getShichenFromSolarTime hours minutes).branch
          = EARTHLY_BRANCHES.get? ((getShichenFromSolarTime hours minutes).index)
      ∧ (getShichenFromSolarTime hours minutes).hexagramNumber
          = SOVEREIGN_HEXAGRAMS.get? ((getShichenFromSolarTime hours minutes).index)
      ∧ (getShichenFromSolarTime hours minutes).hexagramNumber
          = ((getShichenFromSolarTime hours minutes).branch).map sovereignOf := by
  intro hours minutes
  refine ⟨rfl, rfl, ?_⟩
  exact tables_aligned _

/-- C4: for every solar time, `progress + minutesToNext / 120 = 1` holds
exactly, with `progress ∈ [0, 1)` and `minutesToNext ∈ (0, 120]`. -/
theorem claim_C4_progress_complementarity :
    ∀ hours minutes : Nat,
      (getShichenFromSolarTime hours minutes).progress
          + (getShichenFromSolarTime hours minutes).minutesToNext / 120 = 1
      ∧ 0 ≤ (getShichenFromSolarTime hours minutes).progress
      ∧ (getShichenFromSolarTime hours minutes).progress < 1
      ∧ 0 < (getShichenFromSolarTime hours minutes).minutesToNext
      ∧ (getShichenFromSolarTime hours minutes).minutesToNext ≤ 120 := by
  intro hours minutes
  simp only [getShichenFromSolarTime]
  set r : Nat := (hours * 60 + minutes + 60) % (24 * 60) % 120 with hr
  have hrlt : r < 120 := Nat.mod_lt _ (by norm_num)
  have hrq : ((r : ℚ)) < 120 := by exact_mod_cast hrlt
  have hrq0 : (0 : ℚ) ≤ (r : ℚ) := Nat.cast_nonneg r
  refine ⟨by ring, ?_, ?_, ?_, ?_⟩
  · positivity
  · rw [div_lt_one (by norm_num)]; exact hrq
  · linarith
  · linarith

/-! ## Solar time calculator (`calculateTrueSolarTime`) -/

/-- The ambient civil timezone, modelled by the only queries the code
makes against it: `-(new Date(year, 0, 2)).getTimezoneOffset()` (the UTC
offset in minutes on January 2 of a year) and the same on July 2.
JS `getTimezoneOffset()` returns minutes west of UTC, so the code negates
it; the fields below already carry the negated (UTC-offset) value. -/
structure Zone where
  winterOffsetMinutes : Int → ℚ
  summerOffsetMinutes : Int → ℚ

/-- A civil `Date`, modelled by the two pieces `calculateTrueSolarTime`
reads from it: `getFullYear()` and `getTime()` (epoch milliseconds). -/
structure CivilDate where
  year : Int
  epochMillis : ℚ

/-- `calculateTrueSolarTime`: returns `(solarTime, offsetMinutes)` where
the solar time is given as epoch milliseconds.  Faithful to the source:
standard offset is the minimum of the Jan 2 and Jul 2 UTC offsets of the
civil time's year, the central meridian is `standard / 60 * 15`, the
offset is `(longitude - centralMeridian) * 4` minutes, and the solar time
is the civil time shifted by that many minutes. -/
def calculateTrueSolarTime (zone : Zone) (civilTime : CivilDate)
    (longitude : ℚ) : ℚ × ℚ :=
  let winterOffsetMinutes := zone.winterOffsetMinutes civilTime.year
  let summerOffsetMinutes := zone.summerOffsetMinutes civilTime.year
  let standardOffsetMinutes := min winterOffsetMinutes summerOffsetMinutes
  let timezoneCentralLongitude := standardOffsetMinutes / 60 * 15
  let longitudeOffset := longitude - timezoneCentralLongitude
  let solarOffsetMinutes := longitudeOffset * 4
  (civilTime.epochMillis + solarOffsetMinutes * 60 * 1000, solarOffsetMinutes)

/-- C1: `calculateTrueSolarTime` returns
`offsetMinutes = (L - (S/60)*15) * 4` with `S` the minimum of the zone's
Jan 2 / Jul 2 UTC offsets for the civil year, and
`solarTime = civilTime + offsetMinutes` minutes; hence two civil times in
the same year and zone (e.g. one under DST and one not) get exactly the
same `offsetMinutes` — in particular equal within 0.1 minutes. -/
theorem claim_C1_dst_neutral_offset :
    (∀ (zone : Zone) (t : CivilDate) (L : ℚ),
      (calculateTrueSolarTime zone t L).2
          = (L - min (zone.winterOffsetMinutes t.year)
                (zone.summerOffsetMinutes t.year) / 60 * 15) * 4
      ∧ (calculateTrueSolarTime zone t L).1
          = t.epochMillis + (calculateTrueSolarTime zone t L).2 * 60 * 1000)
    ∧ ∀ (zone : Zone) (t₁ t₂ : CivilDate) (L : ℚ),
        t₁.year = t₂.year →
        (calculateTrueSolarTime zone t₁ L).2
            = (calculateTrueSolarTime zone t₂ L).2
        ∧ |(calculateTrueSolarTime zone t₁ L).2
            - (calculateTrueSolarTime zone t₂ L).2| ≤ 1 / 10 := by
  refine ⟨fun zone t L => ⟨rfl, rfl⟩, fun zone t₁ t₂ L hyear => ?_⟩
  have h : (calculateTrueSolarTime zone t₁ L).2
      = (calculateTrueSolarTime zone t₂ L).2 := by
    simp only [calculateTrueSolarTime, hyear]
  refine ⟨h, ?_⟩
  rw [h, sub_self, abs_zero]
  norm_num

/-- Witness for C1 at a concrete zone and two concrete dates of the same
year (a CET-like zone: winter offset 60 min, summer offset 120 min). -/
theorem claim_C1_dst_neutral_offset_witness :
    (calculateTrueSolarTime
        ⟨fun _ => 60, fun _ => 120⟩ ⟨2026, 0⟩ 15).2
      = (calculateTrueSolarTime
        ⟨fun _ => 60, fun _ => 120⟩ ⟨2026, 15724800000⟩ 15).2 :=
  (claim_C1_dst_neutral_offset.2
    ⟨fun _ => 60, fun _ => 120⟩ ⟨2026, 0⟩ ⟨2026, 15724800000⟩ 15 rfl).1

/-! ## GPS locator (`GpsGeoLocator.ts`) -/

/-- `LocationPermissionState`. -/
inductive PermissionState where
  | undetermined | granted | denied | restricted
deriving DecidableEq, Repr

/-- `LocationPrecision`. -/
inductive Precision where
  | high | medium | low
deriving DecidableEq, Repr

/-- A `GeoPosition` snapshot.  `accuracyMeters` is optional in the
source (`accuracyMeters?: number`); `none` is JS `undefined`. -/
structure GeoPosition where
  longitude : ℚ
  latitude : ℚ
  precision : Precision
  timestamp : ℚ
  accuracyMeters : Option ℚ
deriving DecidableEq, Repr

/-- The coordinates delivered by the platform location API
(`location.coords`); `accuracy` is `number | null`, and the source maps
`null` to `undefined` with `?? undefined`, so we model it as `Option`. -/
structure RawCoords where
  latitude : ℚ
  longitude : ℚ
  accuracy : Option ℚ
deriving DecidableEq, Repr

/-- `precisionFromAccuracy`: no accuracy info means assume best;
otherwise under 100 m is high, else medium. -/
def precisionFromAccuracy : Option ℚ → Precision
  | none => .high
  | some accuracyMeters =>
      if accuracyMeters < 100 then .high else .medium

/-- The `GeoPosition` object both `getCurrentPosition` and the
`watchPositionAsync` callback build from a platform fix: precision is
`precisionFromAccuracy` of the reported accuracy and the timestamp is
`new Date()` (the current instant). -/
def mkGpsPosition (coords : RawCoords) (now : ℚ) : GeoPosition :=
  { longitude := coords.longitude
    latitude := coords.latitude
    precision := precisionFromAccuracy coords.accuracy
    timestamp := now
    accuracyMeters := coords.accuracy }

/-- The mutable closure state of `createGpsGeoLocator` that the embedded
operations read and write: the permission state, the cached position and
whether `watchSubscription` is non-null. -/
structure GpsState where
  permissionState : PermissionState
  currentPosition : Option GeoPosition
  watchActive : Bool
deriving DecidableEq, Repr

/-- `GeoLocatorStatus`. -/
structure GeoLocatorStatus where
  permissionState : PermissionState
  isAvailable : Bool
  currentPrecision : Precision
deriving DecidableEq, Repr

/-- Errors `getCurrentPosition` can reject with: its own
"GPS permission not granted" error, or a propagated platform error. -/
inductive GpsError (ε : Type) where
  | permissionNotGranted
  | platform (e : ε)
deriving DecidableEq, Repr

/-- `getCurrentPosition` of the GPS locator.  The one-shot platform fetch
is modelled by its outcome `platformResult`; on success the position is
cached (the state update is returned alongside the value). -/
def getCurrentPosition {ε : Type} (st : GpsState) (now : ℚ)
    (platformResult : Except ε RawCoords) :
    Except (GpsError ε) (GeoPosition × GpsState) :=
  if st.permissionState ≠ PermissionState.granted then
    Except.error GpsError.permissionNotGranted
  else
    match platformResult with
    | Except.error e => Except.error (GpsError.platform e)
    | Except.ok coords =>
        let position := mkGpsPosition coords now
        Except.ok (position, { st with currentPosition := some position })

/-- `getStatusInternal`: precision reflects actual position availability —
the cached position's own precision while the watch is active or the
position is less than 120 s old, and `low` otherwise. -/
def getStatusInternal (st : GpsState) (now : ℚ) : GeoLocatorStatus :=
  { permissionState := st.permissionState
    isAvailable := true
    currentPrecision :=
      match st.currentPosition with
      | none => Precision.low
      | some p =>
          if st.watchActive ∨ now - p.timestamp < 120000 then p.precision
          else Precision.low }

/-- The constant `maxPrecision: 'high'` of the GPS locator record. -/
def gpsMaxPrecision : Precision := .high

/-- C5: `getCurrentPosition` rejects with the permission-not-granted
condition exactly when the permission state is not `granted`; when it is
granted, a platform failure is propagated as a platform error and a
platform success returns the fetched position (which is also cached). -/
theorem claim_C5_permission_rejection {ε : Type} :
    ∀ (st : GpsState) (now : ℚ) (platformResult : Except ε RawCoords),
      ((getCurrentPosition st now platformResult
          = Except.error GpsError.permissionNotGranted)
        ↔ st.permissionState ≠ PermissionState.granted)
      ∧ (st.permissionState = PermissionState.granted →
          (∀ e, platformResult = Except.error e →
            getCurrentPosition st now platformResult
              = Except.error (GpsError.platform e))
          ∧ (∀ coords, platformResult = Except.ok coords →
            getCurrentPosition st now platformResult
              = Except.ok (mkGpsPosition coords now,
                  { st with currentPosition := some (mkGpsPosition coords now) }))) := by
  intro st now platformResult
  constructor
  · constructor
    · intro h hgr
      rw [getCurrentPosition.eq_def, if_neg (by simp [hgr])] at h
      cases platformResult with
      | error e => exact GpsError.noConfusion (Except.error.inj h)
      | ok coords => exact Except.noConfusion h
    · intro h
      rw [getCurrentPosition.eq_def, if_pos h]
  · intro hgr
    constructor
    · intro e he
      rw [getCurrentPosition.eq_def, if_neg (by simp [hgr]), he]
    · intro coords hc
      rw [getCurrentPosition.eq_def, if_neg (by simp [hgr]), hc]

/-- Witness for C5: a concrete granted state with a successful platform
fix returns that fix, and a concrete denied state rejects with the
permission condition. -/
theorem claim_C5_permission_rejection_witness :
    getCurrentPosition (ε := Unit)
        ⟨PermissionState.granted, none, false⟩ 0
        (Except.ok ⟨1, 2, some 50⟩)
      = Except.ok (mkGpsPosition ⟨1, 2, some 50⟩ 0,
          ⟨PermissionState.granted,
            some (mkGpsPosition ⟨1, 2, some 50⟩ 0), false⟩) :=
  ((claim_C5_permission_rejection
      ⟨PermissionState.granted, none, false⟩ 0
      (Except.ok ⟨1, 2, some 50⟩)).2 rfl).2 ⟨1, 2, some 50⟩ rfl

/-- C6: status reports the cached position's precision (`high` below the
100 m accuracy threshold, `medium` at or above it) whenever the watch is
active or the position is under 120 s old; with no cached position, or
with the watch stopped and the position at least 120 s old, it reports
`low`; `maxPrecision` is the constant `high`. -/
theorem claim_C6_status_precision :
    (∀ (st : GpsState) (now : ℚ) (p : GeoPosition),
      st.currentPosition = some p →
      (st.watchActive = true ∨ now - p.timestamp < 120000) →
      (getStatusInternal st now).currentPrecision = p.precision)
    ∧ (∀ (st : GpsState) (now : ℚ),
        st.currentPosition = none →
        (getStatusInternal st now).currentPrecision = Precision.low)
    ∧ (∀ (st : GpsState) (now : ℚ) (p : GeoPosition),
        st.currentPosition = some p →
        st.watchActive = false →
        120000 ≤ now - p.timestamp →
        (getStatusInternal st now).currentPrecision = Precision.low)
    ∧ (∀ a : ℚ, a < 100 → precisionFromAccuracy (some a) = Precision.high)
    ∧ (∀ a : ℚ, 100 ≤ a → precisionFromAccuracy (some a) = Precision.medium)
    ∧ (∀ (coords : RawCoords) (now : ℚ),
        (mkGpsPosition coords now).precision
          = precisionFromAccuracy coords.accuracy)
    ∧ gpsMaxPrecision = Precision.high := by
  refine ⟨?_, ?_, ?_, ?_, ?_, fun _ _ => rfl, rfl⟩
  · intro st now p hp hfresh
    simp only [getStatusInternal, hp]
    rw [if_pos]
    rcases hfresh with h | h
    · exact Or.inl (by simp [h])
    · exact Or.inr h
  · intro st now hp
    simp [getStatusInternal, hp]
  · intro st now p hp hwatch hstale
    simp only [getStatusInternal, hp]
    rw [if_neg]
    rintro (h | h)
    · rw [hwatch] at h; simp at h
    · linarith
  · intro a ha
    simp [precisionFromAccuracy, ha]
  · intro a ha
    simp [precisionFromAccuracy, not_lt.2 ha]

/-- Witness for C6 at concrete states: a fresh cached 50 m-accuracy fix
reports `high`; a stale one with the watch stopped reports `low`. -/
theorem claim_C6_status_precision_witness :
    (getStatusInternal
        ⟨PermissionState.granted, some (mkGpsPosition ⟨1, 2, some 50⟩ 0), true⟩
        0).currentPrecision = Precision.high
    ∧ (getStatusInternal
        ⟨PermissionState.granted, some (mkGpsPosition ⟨1, 2, some 50⟩ 0), false⟩
        130000).currentPrecision = Precision.low :=
  ⟨claim_C6_status_precision.1
      ⟨PermissionState.granted, some (mkGpsPosition ⟨1, 2, some 50⟩ 0), true⟩
      0 (mkGpsPosition ⟨1, 2, some 50⟩ 0) rfl (Or.inl rfl),
   (claim_C6_status_precision.2.2).1
      ⟨PermissionState.granted, some (mkGpsPosition ⟨1, 2, some 50⟩ 0), false⟩
      130000 (mkGpsPosition ⟨1, 2, some 50⟩ 0) rfl rfl (by norm_num [mkGpsPosition])⟩

/-- C10: a platform fix with no accuracy value is classified as best
precision: `precisionFromAccuracy` of `none` is `high`, and the position
object built from such a fix carries precision `high`. -/
theorem claim_C10_missing_accuracy_high :
    precisionFromAccuracy none = Precision.high
    ∧ ∀ (coords : RawCoords) (now : ℚ), coords.accuracy = none →
        (mkGpsPosition coords now).precision = Precision.high := by
  refine ⟨rfl, fun coords now hacc => ?_⟩
  simp [mkGpsPosition, hacc, precisionFromAccuracy]

/-- Witness for C10: a concrete fix with `accuracy = none` yields a
position with precision `high`. -/
theorem claim_C10_missing_accuracy_high_witness :
    (mkGpsPosition ⟨1, 2, none⟩ 0).precision = Precision.high :=
  claim_C10_missing_accuracy_high.2 ⟨1, 2, none⟩ 0 rfl



/-! ## Composite locator selection (`getBestLocator`) -/

/-- What the composite reads from an underlying locator when selecting:
its identity, its declared `maxPrecision`, and the `permissionState` /
`isAvailable` fields of its current `getStatus()`. -/
structure LocatorView where
  id : String
  maxPrecision : Precision
  permissionState : PermissionState
  isAvailable : Bool
deriving DecidableEq, Repr

/-- The literal `precisionOrder = { high: 3, medium: 2, low: 1 }` table. -/
def precisionOrder : Precision → Nat
  | .high => 3
  | .medium => 2
  | .low => 1

/-- The sort comparator `(a, b) => precisionOrder[b] - precisionOrder[a]`
used on `[...locators]`: descending by precision tier. -/
def byPrecisionDesc (a b : LocatorView) : Prop :=
  precisionOrder b.maxPrecision ≤ precisionOrder a.maxPrecision

instance : DecidableRel byPrecisionDesc := fun a b =>
  inferInstanceAs
    (Decidable (precisionOrder b.maxPrecision ≤ precisionOrder a.maxPrecision))

instance : IsTotal LocatorView byPrecisionDesc :=
  ⟨fun a b =>
    (Nat.le_total (precisionOrder b.maxPrecision)
      (precisionOrder a.maxPrecision)).imp id id⟩

instance : IsTrans LocatorView byPrecisionDesc :=
  ⟨fun _ _ _ hab hbc => le_trans hbc hab⟩

instance : IsRefl LocatorView byPrecisionDesc := ⟨fun _ => le_refl _⟩

/-- The `status.permissionState === 'granted' && status.isAvailable`
guard of the selection loop. -/
def grantedAvailable (l : LocatorView) : Bool :=
  decide (l.permissionState = PermissionState.granted) && l.isAvailable

/-- `getBestLocator`: sort a copy of `locators` descending by
`maxPrecision` (JS `Array.prototype.sort` is stable, as is
`insertionSort`), return the first granted-and-available one, and
otherwise fall back to `sorted[sorted.length - 1]` (JS indexing past the
end of an empty array yields `undefined`, modelled by `Option`). -/
def getBestLocator (ls : List LocatorView) : Option LocatorView :=
  match (ls.insertionSort byPrecisionDesc).find? grantedAvailable with
  | some l => some l
  | none =>
      (ls.insertionSort byPrecisionDesc).get?
        ((ls.insertionSort byPrecisionDesc).length - 1)

lemma find_first_dominates :
    ∀ {l : List LocatorView}, l.Sorted byPrecisionDesc →
      ∀ {x : LocatorView}, l.find? grantedAvailable = some x →
        ∀ y ∈ l, grantedAvailable y = true → byPrecisionDesc x y := by
  intro l
  induction l with
  | nil => intro _ x hx; simp at hx
  | cons a t ih =>
    intro hs x hx y hy hgy
    rw [List.sorted_cons] at hs
    cases ha : grantedAvailable a with
    | true =>
      rw [List.find?_cons_of_pos _ ha] at hx
      cases Option.some.inj hx
      rcases List.mem_cons.1 hy with rfl | hyt
      · exact le_refl _
      · exact hs.1 y hyt
    | false =>
      rw [List.find?_cons_of_neg _ (by simp [ha])] at hx
      rcases List.mem_cons.1 hy with rfl | hyt
      · rw [ha] at hgy; exact Bool.noConfusion hgy
      · exact ih hs.2 hx y hyt hgy

lemma last_sorted_min :
    ∀ {l : List LocatorView}, l.Sorted byPrecisionDesc →
      ∀ {x : LocatorView}, l.get? (l.length - 1) = some x →
        x ∈ l ∧ ∀ y ∈ l, byPrecisionDesc y x := by
  intro l
  induction l with
  | nil => intro _ x hx; simp at hx
  | cons a t ih =>
    intro hs x hx
    rw [List.sorted_cons] at hs
    cases t with
    | nil =>
      simp only [List.length_cons, List.length_nil] at hx
      cases Option.some.inj hx
      exact ⟨List.mem_singleton.2 rfl, by
        intro y hy
        rcases List.mem_singleton.1 hy with rfl
        exact le_refl _⟩
    | cons b t2 =>
      have hx' : (b :: t2).get? ((b :: t2).length - 1) = some x := by
        simp only [List.length_cons] at hx ⊢
        simpa using hx
      obtain ⟨hmem, hmin⟩ := ih hs.2 hx'
      refine ⟨List.mem_cons_of_mem a hmem, ?_⟩
      intro y hy
      rcases List.mem_cons.1 hy with rfl | hyt
      · exact hs.1 x hmem
      · exact hmin y hyt

/-- C7: the selection always returns a locator from the configured list
when that list is non-empty; when some locator is granted and available,
the returned one is granted and available with maximal `maxPrecision`
(tiers high=3 > medium=2 > low=1) among all granted-and-available ones;
when none is, the returned one has globally minimal `maxPrecision`. -/
theorem claim_C7_best_locator_selection :
    ∀ ls : List LocatorView, ls ≠ [] →
      ∃ l, getBestLocator ls = some l ∧ l ∈ ls
        ∧ ((∃ g ∈ ls, grantedAvailable g = true) →
            grantedAvailable l = true
            ∧ ∀ g ∈ ls, grantedAvailable g = true →
                precisionOrder g.maxPrecision ≤ precisionOrder l.maxPrecision)
        ∧ ((∀ g ∈ ls, grantedAvailable g = false) →
            ∀ g ∈ ls,
              precisionOrder l.maxPrecision ≤ precisionOrder g.maxPrecision) := by
  intro ls hne
  have hperm := List.perm_insertionSort byPrecisionDesc ls
  have hsort := List.sorted_insertionSort byPrecisionDesc ls
  cases hfind : (ls.insertionSort byPrecisionDesc).find? grantedAvailable with
  | some x =>
    refine ⟨x, ?_, ?_, ?_, ?_⟩
    · simp only [getBestLocator, hfind]
    · exact hperm.mem_iff.1 (List.mem_of_find?_eq_some hfind)
    · intro _
      refine ⟨List.find?_some hfind, ?_⟩
      intro g hg hgr
      exact find_first_dominates hsort hfind g (hperm.mem_iff.2 hg) hgr
    · intro hall
      have hx : grantedAvailable x = true := List.find?_some hfind
      have hxmem : x ∈ ls := hperm.mem_iff.1 (List.mem_of_find?_eq_some hfind)
      rw [hall x hxmem] at hx
      exact Bool.noConfusion hx
  | none =>
    have hlen : 0 < (ls.insertionSort byPrecisionDesc).length := by
      rw [List.length_insertionSort]
      exact List.length_pos.2 hne
    have hlt : (ls.insertionSort byPrecisionDesc).length - 1
        < (ls.insertionSort byPrecisionDesc).length := Nat.sub_lt hlen Nat.one_pos
    have hget := List.get?_eq_get hlt
    obtain ⟨hmem, hmin⟩ := last_sorted_min hsort hget
    refine ⟨_, ?_, hperm.mem_iff.1 hmem, ?_, ?_⟩
    · simp only [getBestLocator, hfind, hget]
    · rintro ⟨g, hg, hgr⟩
      have := List.find?_eq_none.1 hfind g (hperm.mem_iff.2 hg)
      rw [hgr] at this
      exact absurd rfl this
    · intro _ g hg
      exact hmin g (hperm.mem_iff.2 hg)

/-- Witness for C7 at the specification's scenario: three locators with
max precisions low / medium / high where only the low one is granted. -/
theorem claim_C7_best_locator_selection_witness :
    ([⟨"timezone", Precision.low, PermissionState.granted, true⟩,
      ⟨"network", Precision.medium, PermissionState.undetermined, true⟩,
      ⟨"gps", Precision.high, PermissionState.undetermined, true⟩]
        : List LocatorView) ≠ []
    ∧ ∃ l, getBestLocator
        [⟨"timezone", Precision.low, PermissionState.granted, true⟩,
         ⟨"network", Precision.medium, PermissionState.undetermined, true⟩,
         ⟨"gps", Precision.high, PermissionState.undetermined, true⟩] = some l
      ∧ l ∈ ([⟨"timezone", Precision.low, PermissionState.granted, true⟩,
         ⟨"network", Precision.medium, PermissionState.undetermined, true⟩,
         ⟨"gps", Precision.high, PermissionState.undetermined, true⟩]
          : List LocatorView)
      ∧ ((∃ g ∈ ([⟨"timezone", Precision.low, PermissionState.granted, true⟩,
         ⟨"network", Precision.medium, PermissionState.undetermined, true⟩,
         ⟨"gps", Precision.high, PermissionState.undetermined, true⟩]
          : List LocatorView), grantedAvailable g = true) →
          grantedAvailable l = true
          ∧ ∀ g ∈ ([⟨"timezone", Precision.low, PermissionState.granted, true⟩,
         ⟨"network", Precision.medium, PermissionState.undetermined, true⟩,
         ⟨"gps", Precision.high, PermissionState.undetermined, true⟩]
          : List LocatorView), grantedAvailable g = true →
              precisionOrder g.maxPrecision ≤ precisionOrder l.maxPrecision)
      ∧ ((∀ g ∈ ([⟨"timezone", Precision.low, PermissionState.granted, true⟩,
         ⟨"network", Precision.medium, PermissionState.undetermined, true⟩,
         ⟨"gps", Precision.high, PermissionState.undetermined, true⟩]
          : List LocatorView), grantedAvailable g = false) →
          ∀ g ∈ ([⟨"timezone", Precision.low, PermissionState.granted, true⟩,
         ⟨"network", Precision.medium, PermissionState.undetermined, true⟩,
         ⟨"gps", Precision.high, PermissionState.undetermined, true⟩]
          : List LocatorView),
            precisionOrder l.maxPrecision ≤ precisionOrder g.maxPrecision) :=
  ⟨by decide,
   claim_C7_best_locator_selection
     [⟨"timezone", Precision.low, PermissionState.granted, true⟩,
      ⟨"network", Precision.medium, PermissionState.undetermined, true⟩,
      ⟨"gps", Precision.high, PermissionState.undetermined, true⟩]
     (by decide)⟩

/-! ## Composite locator subscription state machine -/

/-- The ids of the configured locators (`locators` is fixed at
construction of the composite). -/
def locatorIds (ls : List LocatorView) : List String :=
  ls.map LocatorView.id

/-- The mutable closure state of `createCompositeGeoLocator`: the number
of registered listeners, the key set of the `unsubscribers` map, the
`currentBestLocatorId`, and whether the 500 ms re-evaluation interval is
running. -/
structure CompositeState where
  listeners : Nat
  subscribed : List String
  currentBest : Option String
  intervalActive : Bool
deriving DecidableEq, Repr

/-- State at construction: no listeners, empty `unsubscribers`, no
current best locator, no interval. -/
def initialCompositeState : CompositeState :=
  { listeners := 0, subscribed := [], currentBest := none,
    intervalActive := false }

/-- `subscribeToLocator`: no-op when the id is already a key of
`unsubscribers`, otherwise record the new subscription. -/
def subscribeToLocator (subscribed : List String) (lid : String) :
    List String :=
  if lid ∈ subscribed then subscribed else lid :: subscribed

/-- The `for (const locator of locators) unsubscribeFromLocator(locator)`
loop (each `unsubscribeFromLocator` deletes the map entry if present). -/
def unsubscribeAll (ids : List String) (subscribed : List String) :
    List String :=
  ids.foldl (fun acc i => acc.erase i) subscribed

/-- The loop in `updateSubscriptions` that unsubscribes every locator
other than the best one. -/
def unsubscribeOthers (ids : List String) (best : String)
    (subscribed : List String) : List String :=
  ids.foldl (fun acc i => if i ≠ best then acc.erase i else acc) subscribed

/-- `updateSubscriptions`: when the best locator changed, unsubscribe all
others, subscribe to the best one, and record it as current.  The
`getBestLocator ls = none` case (empty locator list) would crash in JS
(`undefined.id`); it is modelled as a no-op and excluded by the
reachability hypotheses. -/
def updateSubscriptions (ls : List LocatorView) (s : CompositeState) :
    CompositeState :=
  match getBestLocator ls with
  | none => s
  | some best =>
      if s.currentBest = some best.id then s
      else
        { s with
          subscribed :=
            subscribeToLocator
              (unsubscribeOthers (locatorIds ls) best.id s.subscribed)
              best.id
          currentBest := some best.id }

/-- `subscribe`: add the listener; on the first one, update subscriptions
and start the re-evaluation interval. -/
def compositeSubscribe (ls : List LocatorView) (s : CompositeState) :
    CompositeState :=
  if s.listeners + 1 = 1 then
    { updateSubscriptions ls { s with listeners := s.listeners + 1 } with
        intervalActive := true }
  else { s with listeners := s.listeners + 1 }

/-- The unsubscribe closure returned by `subscribe`: remove the listener;
when the last one goes, unsubscribe from all locators, stop the interval
and clear the current best id.  Removing an already-removed listener is a
no-op (`Set.delete`). -/
def compositeUnsubscribe (ls : List LocatorView) (s : CompositeState) :
    CompositeState :=
  if s.listeners = 0 then s
  else if s.listeners - 1 = 0 then
    { listeners := s.listeners - 1,
      subscribed := unsubscribeAll (locatorIds ls) s.subscribed,
      currentBest := none,
      intervalActive := false }
  else { s with listeners := s.listeners - 1 }

/-- One firing of the 500 ms re-evaluation interval: the callback runs
only while the interval is alive and re-evaluates only when there is at
least one listener. -/
def compositeTick (ls : List LocatorView) (s : CompositeState) :
    CompositeState :=
  if s.intervalActive ∧ 0 < s.listeners then updateSubscriptions ls s else s

/-- `requestPermission`: after delegating to the highest-precision
locator, re-run selection when there are listeners (the permission
outcome itself lives in the next snapshot of locator statuses). -/
def compositeRequestPermission (ls : List LocatorView) (s : CompositeState) :
    CompositeState :=
  if 0 < s.listeners then updateSubscriptions ls s else s

/-- `dispose`: clear listeners, stop the interval, clear the current best
id and unsubscribe from every locator. -/
def compositeDispose (ls : List LocatorView) (s : CompositeState) :
    CompositeState :=
  { listeners := 0, intervalActive := false, currentBest := none,
    subscribed := unsubscribeAll (locatorIds ls) s.subscribed }

/-- States reachable via the composite's operations.  Each step that
consults the locators carries the current snapshot `ls` of their
statuses; the configured locator list (hence its id list) is fixed, and
non-empty by construction (the always-available timezone fallback). -/
inductive Reachable (ids : List String) : CompositeState → Prop where
  | init : Reachable ids initialCompositeState
  | subscribe {s ls} : Reachable ids s → ls ≠ [] →
      locatorIds ls = ids → Reachable ids (compositeSubscribe ls s)
  | unsubscribe {s ls} : Reachable ids s → ls ≠ [] →
      locatorIds ls = ids → Reachable ids (compositeUnsubscribe ls s)
  | tick {s ls} : Reachable ids s → ls ≠ [] →
      locatorIds ls = ids → Reachable ids (compositeTick ls s)
  | requestPermission {s ls} : Reachable ids s → ls ≠ [] →
      locatorIds ls = ids → Reachable ids (compositeRequestPermission ls s)
  | dispose {s ls} : Reachable ids s → ls ≠ [] →
      locatorIds ls = ids → Reachable ids (compositeDispose ls s)

/-- The core invariant: with no listeners nothing is subscribed and no
best id is recorded; with listeners, exactly one locator (the recorded
best, one of the configured ids) is subscribed-to. -/
def CompositeInv (ids : List String) (s : CompositeState) : Prop :=
  (s.listeners = 0 → s.subscribed = [] ∧ s.currentBest = none)
  ∧ (0 < s.listeners →
      ∃ i, i ∈ ids ∧ s.currentBest = some i ∧ s.subscribed = [i])

lemma getBestLocator_exists_mem (ls : List LocatorView) (hne : ls ≠ []) :
    ∃ l, getBestLocator ls = some l ∧ l ∈ ls := by
  have hperm := List.perm_insertionSort byPrecisionDesc ls
  cases hfind : (ls.insertionSort byPrecisionDesc).find? grantedAvailable with
  | some x =>
    exact ⟨x, by simp only [getBestLocator, hfind],
      hperm.mem_iff.1 (List.mem_of_find?_eq_some hfind)⟩
  | none =>
    have hlen : 0 < (ls.insertionSort byPrecisionDesc).length := by
      rw [List.length_insertionSort]
      exact List.length_pos.2 hne
    have hlt : (ls.insertionSort byPrecisionDesc).length - 1
        < (ls.insertionSort byPrecisionDesc).length := Nat.sub_lt hlen Nat.one_pos
    exact ⟨_, by simp only [getBestLocator, hfind, List.get?_eq_get hlt],
      hperm.mem_iff.1 (List.get_mem _ _ hlt)⟩

lemma unsubscribeAll_nil (ids : List String) : unsubscribeAll ids [] = [] := by
  induction ids with
  | nil => rfl
  | cons a rest ih =>
    simp only [unsubscribeAll, List.foldl_cons, List.erase_nil] at ih ⊢
    exact ih

lemma unsubscribeAll_singleton {ids : List String} {i : String}
    (h : i ∈ ids) : unsubscribeAll ids [i] = [] := by
  induction ids with
  | nil => simp at h
  | cons a rest ih =>
    simp only [unsubscribeAll, List.foldl_cons] at ih ⊢
    by_cases hai : a = i
    · subst hai
      rw [show ([a].erase a : List String) = [] by simp]
      have := unsubscribeAll_nil rest
      simpa only [unsubscribeAll] using this
    · rw [show ([i].erase a : List String) = [i] by
        simp [List.erase_cons, Ne.symm hai]]
      exact ih (by
        rcases List.mem_cons.1 h with h1 | h1
        · exact absurd h1.symm hai
        · exact h1)

lemma unsubscribeOthers_nil (ids : List String) (best : String) :
    unsubscribeOthers ids best [] = [] := by
  induction ids with
  | nil => rfl
  | cons a rest ih =>
    simp only [unsubscribeOthers, List.foldl_cons] at ih ⊢
    by_cases hab : a = best
    · rw [if_neg (by simp [hab])]
      exact ih
    · rw [if_pos hab, List.erase_nil]
      exact ih

lemma unsubscribeOthers_self (ids : List String) (best : String) :
    unsubscribeOthers ids best [best] = [best] := by
  induction ids with
  | nil => rfl
  | cons a rest ih =>
    simp only [unsubscribeOthers, List.foldl_cons] at ih ⊢
    by_cases hab : a = best
    · rw [if_neg (by simp [hab])]
      exact ih
    · rw [if_pos hab,
        show ([best].erase a : List String) = [best] by
          simp [List.erase_cons, Ne.symm hab]]
      exact ih

lemma unsubscribeOthers_other {ids : List String} {best i : String}
    (hib : i ≠ best) (h : i ∈ ids) :
    unsubscribeOthers ids best [i] = [] := by
  induction ids with
  | nil => simp at h
  | cons a rest ih =>
    simp only [unsubscribeOthers, List.foldl_cons] at ih ⊢
    by_cases hai : a = i
    · have hab : a ≠ best := by rw [hai]; exact hib
      rw [if_pos hab, show ([i].erase a : List String) = [] by simp [hai]]
      have := unsubscribeOthers_nil rest best
      simpa only [unsubscribeOthers] using this
    · have hstep : (if a ≠ best then ([i].erase a : List String) else [i]) = [i] := by
        by_cases hab : a = best
        · rw [if_neg (by simp [hab])]
        · rw [if_pos hab,
            show ([i].erase a : List String) = [i] by
              simp [List.erase_cons, Ne.symm hai]]
      rw [hstep]
      exact ih (by
        rcases List.mem_cons.1 h with h1 | h1
        · exact absurd h1.symm hai
        · exact h1)

lemma subscribeToLocator_not_mem {subscribed : List String} {lid : String}
    (h : lid ∉ subscribed) : subscribeToLocator subscribed lid = lid :: subscribed := by
  simp [subscribeToLocator, h]

lemma subscribeToLocator_mem {subscribed : List String} {lid : String}
    (h : lid ∈ subscribed) : subscribeToLocator subscribed lid = subscribed := by
  simp [subscribeToLocator, h]

lemma updateSubscriptions_spec {ls : List LocatorView} {ids : List String}
    {s : CompositeState} (hne : ls ≠ []) (hmap : locatorIds ls = ids)
    (hstate : (s.currentBest = none ∧ s.subscribed = [])
      ∨ ∃ i, i ∈ ids ∧ s.currentBest = some i ∧ s.subscribed = [i]) :
    (updateSubscriptions ls s).listeners = s.listeners
    ∧ (updateSubscriptions ls s).intervalActive = s.intervalActive
    ∧ ∃ i, i ∈ ids ∧ (updateSubscriptions ls s).currentBest = some i
        ∧ (updateSubscriptions ls s).subscribed = [i] := by
  obtain ⟨best, hgb, hbmem⟩ := getBestLocator_exists_mem ls hne
  have hbid : best.id ∈ ids := by
    rw [← hmap]
    exact List.mem_map_of_mem LocatorView.id hbmem
  rw [updateSubscriptions.eq_def, hgb]
  dsimp only
  by_cases hcb : s.currentBest = some best.id
  · rw [if_pos hcb]
    refine ⟨rfl, rfl, ?_⟩
    rcases hstate with ⟨hnone, _⟩ | ⟨i, hiid, hcbi, hsubi⟩
    · rw [hnone] at hcb
      exact Option.noConfusion hcb
    · exact ⟨i, hiid, hcbi, hsubi⟩
  · rw [if_neg hcb]
    refine ⟨rfl, rfl, best.id, hbid, rfl, ?_⟩
    rcases hstate with ⟨_, hsub⟩ | ⟨i, hiid, hcbi, hsubi⟩
    · rw [hsub, hmap, unsubscribeOthers_nil,
        subscribeToLocator_not_mem (List.not_mem_nil best.id)]
    · rw [hsubi, hmap]
      by_cases hib : i = best.id
      · rw [hib, unsubscribeOthers_self,
          subscribeToLocator_mem (List.mem_singleton.2 rfl)]
      · rw [unsubscribeOthers_other hib hiid,
          subscribeToLocator_not_mem (List.not_mem_nil best.id)]

lemma reachable_inv {ids : List String} {s : CompositeState}
    (h : Reachable ids s) : CompositeInv ids s := by
  induction h with
  | init =>
    exact ⟨fun _ => ⟨rfl, rfl⟩, fun h0 => absurd h0 (by simp [initialCompositeState])⟩
  | subscribe hr hne hmap ih =>
    rename_i s ls
    rw [compositeSubscribe.eq_def]
    by_cases h1 : s.listeners + 1 = 1
    · rw [if_pos h1]
      have h0 : s.listeners = 0 := by omega
      obtain ⟨hsub, hcb⟩ := ih.1 h0
      have hspec := updateSubscriptions_spec (s := { s with listeners := s.listeners + 1 })
        hne hmap (Or.inl ⟨hcb, hsub⟩)
      obtain ⟨hl, _, i, hiid, hcbi, hsubi⟩ := hspec
      constructor
      · intro hz
        exfalso
        have hz1 : (updateSubscriptions ls
            { s with listeners := s.listeners + 1 }).listeners = 0 := hz
        rw [hl] at hz1
        have hz2 : s.listeners + 1 = 0 := hz1
        omega
      · intro _
        exact ⟨i, hiid, hcbi, hsubi⟩
    · rw [if_neg h1]
      have hpos : 0 < s.listeners := by omega
      obtain ⟨i, hiid, hcbi, hsubi⟩ := ih.2 hpos
      refine ⟨fun hz => ?_, fun _ => ⟨i, hiid, hcbi, hsubi⟩⟩
      exfalso
      have hz2 : s.listeners + 1 = 0 := hz
      omega
  | unsubscribe hr hne hmap ih =>
    rename_i s ls
    rw [compositeUnsubscribe.eq_def]
    by_cases h0 : s.listeners = 0
    · rw [if_pos h0]
      exact ih
    · rw [if_neg h0]
      have hpos : 0 < s.listeners := Nat.pos_of_ne_zero h0
      obtain ⟨i, hiid, hcbi, hsubi⟩ := ih.2 hpos
      by_cases hlast : s.listeners - 1 = 0
      · rw [if_pos hlast]
        refine ⟨fun _ => ⟨?_, rfl⟩, fun hp => absurd hp (by simp [hlast])⟩
        simp only
        rw [hsubi, hmap]
        exact unsubscribeAll_singleton hiid
      · rw [if_neg hlast]
        exact ⟨fun hz => absurd hz hlast, fun _ => ⟨i, hiid, hcbi, hsubi⟩⟩
  | tick hr hne hmap ih =>
    rename_i s ls
    rw [compositeTick.eq_def]
    by_cases hcond : (s.intervalActive : Prop) ∧ 0 < s.listeners
    · rw [if_pos hcond]
      obtain ⟨i, hiid, hcbi, hsubi⟩ := ih.2 hcond.2
      obtain ⟨hl, _, j, hjid, hcbj, hsubj⟩ :=
        updateSubscriptions_spec hne hmap (Or.inr ⟨i, hiid, hcbi, hsubi⟩)
      constructor
      · intro hz
        rw [hl] at hz
        omega
      · intro _
        exact ⟨j, hjid, hcbj, hsubj⟩
    · rw [if_neg hcond]
      exact ih
  | requestPermission hr hne hmap ih =>
    rename_i s ls
    rw [compositeRequestPermission.eq_def]
    by_cases hcond : 0 < s.listeners
    · rw [if_pos hcond]
      obtain ⟨i, hiid, hcbi, hsubi⟩ := ih.2 hcond
      obtain ⟨hl, _, j, hjid, hcbj, hsubj⟩ :=
        updateSubscriptions_spec hne hmap (Or.inr ⟨i, hiid, hcbi, hsubi⟩)
      constructor
      · intro hz
        rw [hl] at hz
        omega
      · intro _
        exact ⟨j, hjid, hcbj, hsubj⟩
    · rw [if_neg hcond]
      exact ih
  | dispose hr hne hmap ih =>
    rename_i s ls
    refine ⟨fun _ => ⟨?_, rfl⟩, fun hp => absurd hp (by simp [compositeDispose])⟩
    simp only [compositeDispose]
    rw [hmap]
    by_cases h0 : s.listeners = 0
    · rw [(ih.1 h0).1]
      exact unsubscribeAll_nil ids
    · obtain ⟨i, hiid, _, hsubi⟩ := ih.2 (Nat.pos_of_ne_zero h0)
      rw [hsubi]
      exact unsubscribeAll_singleton hiid

/-- C8: in every state reachable through subscribe, unsubscribe, the
500 ms re-evaluation tick, requestPermission and dispose, the
`unsubscribers` map has at most one entry; while at least one subscriber
is registered exactly one underlying locator (the recorded best one, a
configured locator) is subscribed-to, and with no subscribers none is. -/
theorem claim_C8_single_subscription_invariant :
    ∀ (ids : List String) (s : CompositeState), Reachable ids s →
      s.subscribed.length ≤ 1
      ∧ (0 < s.listeners →
          ∃ i, i ∈ ids ∧ s.subscribed = [i] ∧ s.currentBest = some i)
      ∧ (s.listeners = 0 → s.subscribed = [] ∧ s.currentBest = none) := by
  intro ids s h
  have hinv := reachable_inv h
  refine ⟨?_, fun hp => ?_, hinv.1⟩
  · by_cases h0 : s.listeners = 0
    · rw [(hinv.1 h0).1]
      exact Nat.zero_le 1
    · obtain ⟨i, _, _, hsubi⟩ := hinv.2 (Nat.pos_of_ne_zero h0)
      rw [hsubi]
      exact Nat.le_refl 1
  · obtain ⟨i, hiid, hcbi, hsubi⟩ := hinv.2 hp
    exact ⟨i, hiid, hsubi, hcbi⟩

/-- Witness for C8: after one concrete subscribe on a two-locator
configuration, exactly one locator is subscribed-to. -/
theorem claim_C8_single_subscription_invariant_witness :
    (compositeSubscribe
        [⟨"gps", Precision.high, PermissionState.undetermined, true⟩,
         ⟨"timezone", Precision.low, PermissionState.granted, true⟩]
        initialCompositeState).subscribed.length = 1 := by
  have h := claim_C8_single_subscription_invariant ["gps", "timezone"]
    (compositeSubscribe
      [⟨"gps", Precision.high, PermissionState.undetermined, true⟩,
       ⟨"timezone", Precision.low, PermissionState.granted, true⟩]
      initialCompositeState)
    (Reachable.subscribe Reachable.init (by decide) rfl)
  obtain ⟨i, _, hsub, _⟩ := h.2.1 (by decide)
  rw [hsub]
  rfl

/-! ## Solar-time provider timer (`getMillisecondsToNextMinute`,
`scheduleNextUpdate`, `startUpdates`) -/

/-- The fields the scheduler reads from `new Date()`:
`getSeconds()` and `getMilliseconds()`. -/
structure ClockReading where
  seconds : Nat
  milliseconds : Nat
deriving DecidableEq, Repr

/-- `getMillisecondsToNextMinute`: delay to the next wall-clock minute
boundary plus a 100 ms buffer. -/
def getMillisecondsToNextMinute (now : ClockReading) : Int :=
  (60 - (now.seconds : Int)) * 1000 - (now.milliseconds : Int) + 100

/-- The provider's timer/subscription closure state: `timeTimeoutId`
(carrying the delay it was armed with) and `geoUnsubscribe`. -/
structure ProviderTimerState where
  timePending : Option Int
  geoSubscribed : Bool
deriving DecidableEq, Repr

/-- `scheduleNextUpdate`: arm the one-shot timeout with the delay to the
next minute boundary, unless one is already armed. -/
def scheduleNextUpdate (now : ClockReading) (st : ProviderTimerState) :
    ProviderTimerState :=
  match st.timePending with
  | some _ => st
  | none => { st with timePending := some (getMillisecondsToNextMinute now) }

/-- `startUpdates`: no-op when already started; otherwise subscribe to the
locator and arm the first minute-boundary timeout. -/
def startUpdates (now : ClockReading) (st : ProviderTimerState) :
    ProviderTimerState :=
  if st.timePending.isSome ∨ st.geoSubscribed then st
  else scheduleNextUpdate now { st with geoSubscribed := true }

/-- The body of the armed timeout: it clears its own id, recomputes the
data, and re-arms for the next minute boundary (read at firing time). -/
def timerFire (nowAtFire : ClockReading) (st : ProviderTimerState) :
    ProviderTimerState :=
  scheduleNextUpdate nowAtFire { st with timePending := none }

/-- C9: at every scheduling point — the first subscriber attaching
(`startUpdates`) and every subsequent firing — the armed delay is
`(60 - seconds) * 1000 - milliseconds + 100` ms for the current clock
reading, i.e. 100 ms past the next minute boundary, independent of any
fixed update period; for genuine clock readings the delay is positive. -/
theorem claim_C9_minute_boundary_scheduling :
    (∀ now : ClockReading,
      getMillisecondsToNextMinute now
        = (60 - (now.seconds : Int)) * 1000 - (now.milliseconds : Int) + 100)
    ∧ (∀ (now : ClockReading) (st : ProviderTimerState),
        st.timePending = none → st.geoSubscribed = false →
        (startUpdates now st).timePending
          = some ((60 - (now.seconds : Int)) * 1000
              - (now.milliseconds : Int) + 100))
    ∧ (∀ (now : ClockReading) (st : ProviderTimerState),
        (timerFire now st).timePending
          = some ((60 - (now.seconds : Int)) * 1000
              - (now.milliseconds : Int) + 100))
    ∧ (∀ now : ClockReading, now.seconds < 60 → now.milliseconds < 1000 →
        0 < getMillisecondsToNextMinute now) := by
  refine ⟨fun now => rfl, ?_, ?_, ?_⟩
  · intro now st hpend hgeo
    rw [startUpdates, if_neg (by simp [hpend, hgeo]), scheduleNextUpdate.eq_def]
    simp only [hpend]
    rfl
  · intro now st
    rw [timerFire, scheduleNextUpdate.eq_def]
    rfl
  · intro now hs hms
    unfold getMillisecondsToNextMinute
    omega

/-- Witness for C9: attaching at 30.250 s past the minute arms a
29 850 ms delay, and the delay at the latest possible reading (59.999 s)
is still positive. -/
theorem claim_C9_minute_boundary_scheduling_witness :
    (startUpdates ⟨30, 250⟩ ⟨none, false⟩).timePending = some 29850
    ∧ 0 < getMillisecondsToNextMinute ⟨59, 999⟩ :=
  ⟨by
    rw [claim_C9_minute_boundary_scheduling.2.1 ⟨30, 250⟩ ⟨none, false⟩ rfl rfl]
    norm_num,
   claim_C9_minute_boundary_scheduling.2.2.2 ⟨59, 999⟩ (by norm_num) (by norm_num)⟩
